import Mathlib

/-!
Verification of the in-memory vector store (cosine-similarity document
collections behind a name registry).

The embedding mirrors the source:
* floating-point numbers are idealised as real numbers `ℝ` (so there is no
  NaN and no rounding; the comparison fallback branch of the sort, which
  only fires on NaN, is dead in this idealisation);
* the hash maps (id → Document, name → Collection) are association lists
  whose insert replaces any previous binding of the key; iteration order is
  unspecified in the source, and no theorem below depends on it;
* the registry lock only serialises access and carries no logical content
  in a sequential, state-passing semantics, so it is dropped;
* the data-parallel similarity map is a plain `List.map` (the fan-out/fan-in
  computes exactly one independent output per document).
-/

/-- A document: a unique id together with its embedding vector. -/
structure Document where
  id : String
  embedding : List ℝ

/-- A named collection of documents, keyed by document id. -/
structure Collection where
  name : String
  documents : List (String × Document)

/-- Dot product as computed in the source: elementwise products over the
zip of the two vectors (which truncates to the shorter length), summed. -/
noncomputable def dot_product (vec1 vec2 : List ℝ) : ℝ :=
  ((vec1.zip vec2).map fun p => p.1 * p.2).sum

/-- Euclidean magnitude as computed in the source: square root of the sum
of squares over the vector's full length. -/
noncomputable def magnitude (vec : List ℝ) : ℝ :=
  Real.sqrt ((vec.map fun a => a * a).sum)

/-- Cosine similarity between two vectors, translated from the source:
the quotient of the dot product by the product of the magnitudes when both
magnitudes are strictly positive, and 0 otherwise. -/
noncomputable def cosine_similarity (vec1 vec2 : List ℝ) : ℝ :=
  let dp := ((vec1.zip vec2).map fun p => p.1 * p.2).sum
  let magnitude1 := Real.sqrt ((vec1.map fun a => a * a).sum)
  let magnitude2 := Real.sqrt ((vec2.map fun a => a * a).sum)
  if magnitude1 > 0 ∧ magnitude2 > 0 then dp / (magnitude1 * magnitude2) else 0

/-- Creates a new empty collection with the given name. -/
def Collection.new (name : String) : Collection :=
  { name := name, documents := [] }

/-- Adds a document to the collection: the map insert replaces any previous
binding of the id. -/
def Collection.add_document (c : Collection) (id : String) (embedding : List ℝ) :
    Collection :=
  { c with
    documents :=
      (id, { id := id, embedding := embedding }) ::
        c.documents.filter fun kv => kv.1 ≠ id }

/-- Removes the document with the given id from the collection, if present. -/
def Collection.remove_document (c : Collection) (id : String) : Collection :=
  { c with documents := c.documents.filter fun kv => kv.1 ≠ id }

/-- The descending-score order used by the ranking sort: the comparator of
the source orders a pair before another exactly when the second score is at
most the first (over `ℝ` the comparison is always defined, so the
fallback-to-equal branch for undefined comparisons never fires). -/
def score_desc (a b : String × ℝ) : Prop := b.2 ≤ a.2

noncomputable instance : DecidableRel score_desc :=
  fun a b => inferInstanceAs (Decidable (b.2 ≤ a.2))

instance : IsTotal (String × ℝ) score_desc :=
  ⟨fun a b => le_total b.2 a.2⟩

instance : IsTrans (String × ℝ) score_desc :=
  ⟨fun _ _ _ h1 h2 => le_trans h2 h1⟩

/-- Returns the `top_n` documents of the collection most similar to the
query embedding: score every stored document, sort by score descending,
keep the first `top_n`. -/
noncomputable def Collection.get_similar_documents (c : Collection)
    (query_embedding : List ℝ) (top_n : ℕ) : List (String × ℝ) :=
  let similarities :=
    c.documents.map fun kv => (kv.2.id, cosine_similarity kv.2.embedding query_embedding)
  let sorted_similarities := similarities.insertionSort score_desc
  sorted_similarities.take top_n

/-- The database: a registry of collections keyed by name. -/
structure Database where
  collections : List (String × Collection)

/-- Creates a new empty database. -/
def Database.new : Database :=
  { collections := [] }

/-- Creates a fresh collection under the given name, replacing any previous
binding of that name. -/
def Database.create_collection (db : Database) (name : String) : Database :=
  { collections :=
      (name, Collection.new name) :: db.collections.filter fun kv => kv.1 ≠ name }

/-- Deletes the collection with the given name, if present. -/
def Database.delete_collection (db : Database) (name : String) : Database :=
  { collections := db.collections.filter fun kv => kv.1 ≠ name }

/-- Looks up a collection by name; the source returns a clone of the stored
value, which value semantics renders as returning the stored value itself. -/
def Database.get_collection (db : Database) (name : String) : Option Collection :=
  db.collections.lookup name

/-- A caller's trace for the snapshot semantics: obtain the collection,
mutate the returned copy, then read the same name back from the database.
The database value is never rebound, which is exactly what the source's
clone-on-read guarantees. -/
def Database.snapshot_readback (db : Database) (name id : String)
    (embedding : List ℝ) : Option Collection :=
  match db.get_collection name with
  | none => none
  | some col =>
    let _mutated := col.add_document id embedding
    db.get_collection name

/-- Dot product as worded by the specification for mismatched lengths: only
the overlapping first `min (len a) (len b)` positions contribute. Stated
from the specification's words, to be compared with `dot_product` from the
source. -/
noncomputable def overlap_dot (a b : List ℝ) : ℝ :=
  ∑ i ∈ Finset.range (min a.length b.length), a.getD i 0 * b.getD i 0

/-- A small concrete collection used to evaluate the operations. -/
noncomputable def sample_collection : Collection :=
  { name := "t"
    documents :=
      [("a", { id := "a", embedding := [1] }),
       ("b", { id := "b", embedding := [1] })] }

/-! ### Helper lemmas -/

theorem cosine_similarity_def (vec1 vec2 : List ℝ) :
    cosine_similarity vec1 vec2 =
      if 0 < magnitude vec1 ∧ 0 < magnitude vec2 then
        dot_product vec1 vec2 / (magnitude vec1 * magnitude vec2)
      else 0 :=
  rfl

theorem lookup_eq_none_iff {β : Type} (l : List (String × β)) (k : String) :
    l.lookup k = none ↔ k ∉ l.map Prod.fst := by
  induction l with
  | nil => simp
  | cons a l ih =>
    by_cases h : k = a.1
    · subst h
      simp [List.lookup]
    · have hk : (k == a.1) = false := beq_false_of_ne h
      simp [List.lookup, hk, ih, h]

theorem lookup_mem {β : Type} {l : List (String × β)} {k : String} {b : β}
    (hl : l.lookup k = some b) : (k, b) ∈ l := by
  induction l with
  | nil => simp [List.lookup] at hl
  | cons a l ih =>
    by_cases h : k = a.1
    · subst h
      simp only [List.lookup, beq_self_eq_true, Option.some.injEq] at hl
      subst hl
      simp
    · have hk : (k == a.1) = false := beq_false_of_ne h
      simp only [List.lookup, hk] at hl
      exact List.mem_cons_of_mem _ (ih hl)

theorem filter_key_of_insert {β : Type} (l : List (String × β)) (k : String) (b : β) :
    (((k, b) :: l.filter fun kv => kv.1 ≠ k).filter fun kv => kv.1 = k) = [(k, b)] := by
  have hnil : ((l.filter fun kv => kv.1 ≠ k).filter fun kv => kv.1 = k) = [] := by
    rw [List.filter_filter]
    apply List.filter_eq_nil_iff.mpr
    intro kv _
    by_cases h : kv.1 = k <;> simp [h]
  rw [List.filter_cons]
  simp [hnil]

theorem lookup_head {β : Type} (l : List (String × β)) (k : String) (b : β) :
    ((k, b) :: l).lookup k = some b := by
  simp [List.lookup]

theorem sum_map_eq_finset_sum {α : Type} (l : List α) (f : α → ℝ) :
    (l.map f).sum = ∑ i : Fin l.length, f (l.get i) := by
  conv_lhs => rw [← List.ofFn_get l, List.map_ofFn, List.sum_ofFn]
  rfl

theorem sum_map_nonneg {α : Type} (l : List α) (f : α → ℝ) (h : ∀ x, 0 ≤ f x) :
    0 ≤ (l.map f).sum := by
  apply List.sum_nonneg
  intro x hx
  obtain ⟨y, _, rfl⟩ := List.mem_map.1 hx
  exact h y

theorem dot_sq_le (l : List (ℝ × ℝ)) :
    ((l.map fun p => p.1 * p.2).sum) ^ 2 ≤
      ((l.map fun p => p.1 * p.1).sum) * ((l.map fun p => p.2 * p.2).sum) := by
  rw [sum_map_eq_finset_sum, sum_map_eq_finset_sum, sum_map_eq_finset_sum]
  have h := Finset.sum_mul_sq_le_sq_mul_sq Finset.univ
    (fun i : Fin l.length => (l.get i).1) (fun i : Fin l.length => (l.get i).2)
  simpa only [pow_two] using h

theorem zip_fst_sq_sum_le (a b : List ℝ) :
    ((a.zip b).map fun p => p.1 * p.1).sum ≤ (a.map fun x => x * x).sum := by
  induction a generalizing b with
  | nil => simp
  | cons x xs ih =>
    cases b with
    | nil =>
      simp only [List.zip_nil_right, List.map_nil, List.sum_nil]
      exact sum_map_nonneg _ _ fun y => mul_self_nonneg y
    | cons y ys =>
      simp only [List.zip_cons_cons, List.map_cons, List.sum_cons]
      exact add_le_add_left (ih ys) _

theorem zip_snd_sq_sum_le (a b : List ℝ) :
    ((a.zip b).map fun p => p.2 * p.2).sum ≤ (b.map fun x => x * x).sum := by
  have h : ((a.zip b).map fun p => p.2 * p.2)
      = ((b.zip a).map fun p => p.1 * p.1) := by
    rw [← List.zip_swap b a, List.map_map]
    rfl
  rw [h]
  exact zip_fst_sq_sum_le b a

theorem abs_dot_product_le (a b : List ℝ) :
    |dot_product a b| ≤ magnitude a * magnitude b := by
  have h1 := dot_sq_le (a.zip b)
  have h2 : ((a.zip b).map fun p => p.1 * p.1).sum * ((a.zip b).map fun p => p.2 * p.2).sum
      ≤ (a.map fun x => x * x).sum * (b.map fun x => x * x).sum :=
    mul_le_mul (zip_fst_sq_sum_le a b) (zip_snd_sq_sum_le a b)
      (sum_map_nonneg _ _ fun p => mul_self_nonneg p.2)
      (sum_map_nonneg _ _ fun x => mul_self_nonneg x)
  have h3 : (dot_product a b) ^ 2 ≤ (a.map fun x => x * x).sum * (b.map fun x => x * x).sum :=
    le_trans h1 h2
  have h4 : Real.sqrt ((dot_product a b) ^ 2)
      ≤ Real.sqrt ((a.map fun x => x * x).sum * (b.map fun x => x * x).sum) :=
    Real.sqrt_le_sqrt h3
  rw [Real.sqrt_sq_eq_abs] at h4
  rw [Real.sqrt_mul (sum_map_nonneg _ _ fun x => mul_self_nonneg x)] at h4
  exact h4

/-! ### Claim theorems -/

/-- C1: for every pair of vectors, the similarity equals the dot product
divided by the product of the magnitudes when both magnitudes are strictly
positive, and is exactly 0 when either magnitude is zero or otherwise not
strictly positive (a magnitude is a square root, hence nonnegative). -/
theorem cosine_similarity_pos_norms (a b : List ℝ) :
    (0 < magnitude a → 0 < magnitude b →
      cosine_similarity a b = dot_product a b / (magnitude a * magnitude b)) ∧
    (¬ (0 < magnitude a ∧ 0 < magnitude b) → cosine_similarity a b = 0) ∧
    (magnitude a = 0 ∨ magnitude b = 0 → cosine_similarity a b = 0) := by
  refine ⟨fun h1 h2 => ?_, fun h => ?_, fun h => ?_⟩
  · rw [cosine_similarity_def, if_pos ⟨h1, h2⟩]
  · rw [cosine_similarity_def, if_neg h]
  · rw [cosine_similarity_def, if_neg]
    rcases h with h | h
    · exact fun hc => absurd hc.1 (by rw [h]; exact lt_irrefl 0)
    · exact fun hc => absurd hc.2 (by rw [h]; exact lt_irrefl 0)

/-- Witness for C1 at the concrete input a = b = [1]. -/
theorem cosine_similarity_pos_norms_witness :
    0 < magnitude [(1 : ℝ)] ∧
      cosine_similarity [(1 : ℝ)] [(1 : ℝ)] =
        dot_product [(1 : ℝ)] [(1 : ℝ)] / (magnitude [(1 : ℝ)] * magnitude [(1 : ℝ)]) := by
  have hm : magnitude [(1 : ℝ)] = 1 := by simp [magnitude]
  have hpos : 0 < magnitude [(1 : ℝ)] := by rw [hm]; exact one_pos
  exact ⟨hpos, (cosine_similarity_pos_norms [(1 : ℝ)] [(1 : ℝ)]).1 hpos hpos⟩

/-- C6: add_document always succeeds: afterwards the collection maps the id
to a document carrying the given embedding, the id is bound exactly once,
and a second add with the same id leaves only the latest embedding bound. -/
theorem add_document_overwrites (c : Collection) (id : String) (emb emb2 : List ℝ) :
    (c.add_document id emb).documents.lookup id = some ⟨id, emb⟩ ∧
    ((c.add_document id emb).documents.filter fun kv => kv.1 = id)
      = [(id, ⟨id, emb⟩)] ∧
    (((c.add_document id emb).add_document id emb2).documents.filter fun kv => kv.1 = id)
      = [(id, ⟨id, emb2⟩)] :=
  ⟨lookup_head _ id _, filter_key_of_insert _ id _, filter_key_of_insert _ id _⟩

/-- C9: create_collection always succeeds, binds the name to a fresh empty
collection whose name field equals the given name, and binds the name
exactly once, so any prior collection under that name is discarded. -/
theorem create_collection_fresh (db : Database) (name : String) :
    (db.create_collection name).get_collection name = some (Collection.new name) ∧
    Collection.new name = { name := name, documents := [] } ∧
    ((db.create_collection name).collections.filter fun kv => kv.1 = name)
      = [(name, Collection.new name)] :=
  ⟨lookup_head _ name _, rfl, filter_key_of_insert _ name _⟩

/-- C10: cosine similarity is commutative in its two arguments, including
for vectors of different lengths. -/
theorem cosine_similarity_comm (a b : List ℝ) :
    cosine_similarity a b = cosine_similarity b a := by
  have hdot : dot_product b a = dot_product a b := by
    unfold dot_product
    rw [← List.zip_swap a b, List.map_map]
    have h1 : ((fun p : ℝ × ℝ => p.1 * p.2) ∘ Prod.swap) = fun p : ℝ × ℝ => p.2 * p.1 := rfl
    have h2 : (fun p : ℝ × ℝ => p.2 * p.1) = fun p : ℝ × ℝ => p.1 * p.2 := by
      funext p
      exact mul_comm _ _
    rw [h1, h2]
  rw [cosine_similarity_def, cosine_similarity_def]
  exact if_congr and_comm (by rw [hdot]; ring) rfl

/-- C4: a similarity score always lies in the interval [−1, 1] (every value
of the real idealisation is finite), and when a compared vector has zero
magnitude the score is exactly 0. -/
theorem cosine_similarity_bounds (a b : List ℝ) :
    (-1 ≤ cosine_similarity a b ∧ cosine_similarity a b ≤ 1) ∧
    (magnitude a = 0 ∨ magnitude b = 0 → cosine_similarity a b = 0) := by
  constructor
  · rw [cosine_similarity_def]
    split_ifs with h
    · obtain ⟨h1, h2⟩ := h
      have hpos : 0 < magnitude a * magnitude b := mul_pos h1 h2
      have habs : |dot_product a b / (magnitude a * magnitude b)| ≤ 1 := by
        rw [abs_div, abs_of_pos hpos]
        exact div_le_one_of_le₀ (abs_dot_product_le a b) (le_of_lt hpos)
      exact abs_le.mp habs
    · norm_num
  · intro h
    have hn : ¬ (0 < magnitude a ∧ 0 < magnitude b) := by
      rintro ⟨h1, h2⟩
      rcases h with h | h
      · rw [h] at h1
        exact lt_irrefl 0 h1
      · rw [h] at h2
        exact lt_irrefl 0 h2
    rw [cosine_similarity_def, if_neg hn]

/-- Witness for C4 at the concrete input a = [0], b = [1]. -/
theorem cosine_similarity_bounds_witness :
    magnitude [(0 : ℝ)] = 0 ∧ cosine_similarity [(0 : ℝ)] [(1 : ℝ)] = 0 := by
  have hm : magnitude [(0 : ℝ)] = 0 := by simp [magnitude]
  exact ⟨hm, (cosine_similarity_bounds [(0 : ℝ)] [(1 : ℝ)]).2 (Or.inl hm)⟩

theorem dot_product_eq_overlap (a b : List ℝ) : dot_product a b = overlap_dot a b := by
  induction a generalizing b with
  | nil => simp [dot_product, overlap_dot]
  | cons x xs ih =>
    cases b with
    | nil => simp [dot_product, overlap_dot]
    | cons y ys =>
      have ihy := ih ys
      unfold dot_product overlap_dot at ihy ⊢
      simp only [List.zip_cons_cons, List.map_cons, List.sum_cons, List.length_cons]
      rw [Nat.succ_min_succ, Finset.sum_range_succ']
      simp only [List.getD_cons_succ, List.getD_cons_zero]
      rw [← ihy]
      ring

/-- C5: for vectors of different lengths the dot product is computed over
only the overlapping first min(len a, len b) positions, while each
magnitude is computed over that vector's full length: the similarity is
the quotient of the overlap dot product by the product of the full-length
magnitudes whenever both are strictly positive. -/
theorem cosine_similarity_overlap (a b : List ℝ) :
    dot_product a b = overlap_dot a b ∧
    cosine_similarity a b =
      if 0 < magnitude a ∧ 0 < magnitude b then
        overlap_dot a b / (magnitude a * magnitude b)
      else 0 := by
  refine ⟨dot_product_eq_overlap a b, ?_⟩
  rw [cosine_similarity_def, dot_product_eq_overlap a b]

/-- C2: the sequence returned by get_similar_documents is always sorted by
score non-increasing: each entry's score is at least the next entry's. -/
theorem get_similar_documents_sorted (c : Collection) (q : List ℝ) (n : ℕ) :
    List.Sorted score_desc (c.get_similar_documents q n) := by
  simp only [Collection.get_similar_documents]
  exact List.Pairwise.sublist (List.take_sublist n _)
    (List.sorted_insertionSort score_desc _)

/-- C3: get_similar_documents returns exactly min(top_n, document count)
entries, and when the collection has at most top_n documents the returned
ids are a permutation of all stored document ids. -/
theorem get_similar_documents_count (c : Collection) (q : List ℝ) (n : ℕ) :
    (c.get_similar_documents q n).length = min n c.documents.length ∧
    (c.documents.length ≤ n →
      ((c.get_similar_documents q n).map Prod.fst).Perm
        (c.documents.map fun kv => kv.2.id)) := by
  constructor
  · simp only [Collection.get_similar_documents]
    rw [List.length_take, List.length_insertionSort, List.length_map]
  · intro hle
    simp only [Collection.get_similar_documents]
    rw [List.take_of_length_le
      (by rw [List.length_insertionSort, List.length_map]; exact hle)]
    have hp := List.perm_insertionSort score_desc
      (c.documents.map fun kv => (kv.2.id, cosine_similarity kv.2.embedding q))
    have hmap := hp.map Prod.fst
    rw [List.map_map] at hmap
    exact hmap

/-- Witness for C3 at the empty collection with top_n = 0. -/
theorem get_similar_documents_count_witness :
    ((Collection.mk "t" []).get_similar_documents [] 0).length = 0 ∧
      (((Collection.mk "t" []).get_similar_documents [] 0).map Prod.fst).Perm [] := by
  constructor
  · have h := (get_similar_documents_count (Collection.mk "t" []) [] 0).1
    simpa using h
  · have h := (get_similar_documents_count (Collection.mk "t" []) [] 0).2 (by simp)
    simpa using h

/-- C7: remove_document deletes the binding of the id and is a no-op when
the id is absent; afterwards get_similar_documents never returns an entry
with the removed id (the well-formedness hypothesis states that each stored
document's id field equals its key, which every collection built through
add_document satisfies). -/
theorem remove_document_not_found (c : Collection) (id : String) (q : List ℝ) (n : ℕ)
    (hwf : ∀ kv ∈ c.documents, kv.2.id = kv.1) :
    (c.remove_document id).documents.lookup id = none ∧
    (id ∉ c.documents.map Prod.fst → (c.remove_document id).documents = c.documents) ∧
    id ∉ ((c.remove_document id).get_similar_documents q n).map Prod.fst := by
  refine ⟨?_, ?_, ?_⟩
  · rw [lookup_eq_none_iff]
    intro hmem
    obtain ⟨kv, hkv, hfst⟩ := List.mem_map.1 hmem
    have h2 : kv.1 ≠ id := by simpa using (List.mem_filter.1 hkv).2
    exact h2 hfst
  · intro hid
    apply List.filter_eq_self.mpr
    intro kv hkv
    have : kv.1 ≠ id := fun h => hid (List.mem_map.2 ⟨kv, hkv, h⟩)
    simpa using this
  · intro hmem
    simp only [Collection.get_similar_documents] at hmem
    obtain ⟨x, hx, hxid⟩ := List.mem_map.1 hmem
    have hx1 := List.mem_of_mem_take hx
    have hx2 := (List.mem_insertionSort score_desc).1 hx1
    obtain ⟨kv, hkv, rfl⟩ := List.mem_map.1 hx2
    have hkvdoc := List.mem_filter.1 hkv
    have hne : kv.1 ≠ id := by simpa using hkvdoc.2
    have hid2 : kv.2.id = kv.1 := hwf kv hkvdoc.1
    exact hne (hid2.symm.trans hxid)

/-- Witness for C7 on the two-document sample collection. -/
theorem remove_document_not_found_witness :
    (sample_collection.remove_document "a").documents.lookup "a" = none ∧
    ("a" ∉ sample_collection.documents.map Prod.fst →
      (sample_collection.remove_document "a").documents = sample_collection.documents) ∧
    "a" ∉ ((sample_collection.remove_document "a").get_similar_documents
      [(1 : ℝ)] 2).map Prod.fst := by
  apply remove_document_not_found sample_collection "a" [(1 : ℝ)] 2
  intro kv hkv
  simp only [sample_collection, List.mem_cons, List.not_mem_nil, or_false] at hkv
  rcases hkv with rfl | rfl <;> rfl

/-- C8: get_collection yields an absent result exactly when the name is
unregistered, otherwise it returns the stored collection; the returned
value is a snapshot: mutating it and reading the name back still yields the
stored value, unchanged. -/
theorem get_collection_snapshot (db : Database) (name id : String) (emb : List ℝ) :
    (db.get_collection name = none ↔ name ∉ db.collections.map Prod.fst) ∧
    (∀ col, db.get_collection name = some col → (name, col) ∈ db.collections) ∧
    db.snapshot_readback name id emb = db.get_collection name := by
  refine ⟨lookup_eq_none_iff _ _, fun _ h => lookup_mem h, ?_⟩
  unfold Database.snapshot_readback
  cases h : db.get_collection name <;> simp [h]

/-- Witness for C8 on a database holding one collection named t. -/
theorem get_collection_snapshot_witness :
    ((Database.new.create_collection "t").get_collection "t" = none ↔
      "t" ∉ (Database.new.create_collection "t").collections.map Prod.fst) ∧
    (Database.new.create_collection "t").snapshot_readback "t" "doc1" [(1 : ℝ)]
      = (Database.new.create_collection "t").get_collection "t" :=
  ⟨(get_collection_snapshot (Database.new.create_collection "t") "t" "doc1" [(1 : ℝ)]).1,
   (get_collection_snapshot (Database.new.create_collection "t") "t" "doc1" [(1 : ℝ)]).2.2⟩
